import Mathlib

/-!
# A verification development for the glacier-lang bytecode VM

Shallow embedding of the VM's value data model, comparison, call frame,
single-step dispatchers and the instruction codec, translated from the Rust
sources `src/vm/src/datamodel.rs`, `src/vm/src/machine.rs`, `src/vm/src/op.rs`
and `src/vm/src/operation.rs`.

Modelling conventions:

* Bytes (`u8`) are `Fin 256`.  `i64` values are `Int` with explicit two's
  complement wrapping (`wrap64`) where the Rust operation wraps, `usize`
  casts are `% 2^64`.  `f64` values are represented by their 64-bit IEEE-754
  pattern (`F64.bits : Nat`).  Sign tests, zero tests and the partial order
  on `f64` are implemented faithfully from the bit pattern.  The *results* of
  IEEE float arithmetic (`+ - * / %`, int↔real casts) are opaque in this
  development: they are modelled as total constant functions, which is sound
  here because no theorem below depends on the numeric value produced by a
  float arithmetic operation — only on the fact that Rust `f64` arithmetic is
  total and never traps.
* Reference-counted heap cells (`Rc`, `Rc<RefCell<_>>`) are modelled as a
  snapshot of their current content paired with an identity number used for
  `ptr_eq`; `Weak` handles additionally carry an `alive` flag.  This is
  adequate for the one-step and comparison properties proved here, none of
  which concerns aliasing between two handles across an instruction.
* The operand stack is a `List` whose head is the top of the stack
  (Rust pushes/pops at the end of its `Vec`).
* `todo!()` (a Rust panic) is modelled by a third result alternative
  `StepRes.panicked`, distinct from every directive and every `VmError`.
-/

/-! ## Machine integer helpers -/

/-- Two's complement wrap of an integer into the `i64` range. -/
def wrap64 (x : Int) : Int := (x + 2 ^ 63) % 2 ^ 64 - 2 ^ 63

/-- Two's complement wrap of an integer into the `i32` range. -/
def wrap32 (x : Int) : Int := (x + 2 ^ 31) % 2 ^ 32 - 2 ^ 31

/-- The `u64` bit pattern of an `i64` value (`as u64`). -/
def toU64 (x : Int) : Nat := (x % 2 ^ 64).toNat

/-- Reinterpret a `u64` bit pattern as an `i64` value. -/
def ofU64 (u : Nat) : Int := if u % 2 ^ 64 < 2 ^ 63 then (u % 2 ^ 64 : Nat) else (u % 2 ^ 64 : Nat) - 2 ^ 64

/-- Rust `usize` cast of an `i64` (`as usize`): two's complement reinterpretation. -/
def usizeOfI64 (x : Int) : Nat := toU64 x

/-- Rust `i64 << i64` (release semantics: the shift amount is masked to 6 bits). -/
def i64Shl (a b : Int) : Int := wrap64 (a * 2 ^ (b % 64).toNat)

/-- Rust `i64 >> i64` (arithmetic shift; the shift amount is masked to 6 bits). -/
def i64Shr (a b : Int) : Int := Int.fdiv a (2 ^ (b % 64).toNat)

/-- Rust `i64 & i64`. -/
def i64And (a b : Int) : Int := ofU64 (Nat.land (toU64 a) (toU64 b))

/-- Rust `i64 | i64`. -/
def i64Or (a b : Int) : Int := ofU64 (Nat.lor (toU64 a) (toU64 b))

/-- Rust `i64 ^ i64`. -/
def i64Xor (a b : Int) : Int := ofU64 (Nat.xor (toU64 a) (toU64 b))

/-- Rust `!i64` (bitwise complement). -/
def i64Not (a : Int) : Int := ofU64 (2 ^ 64 - 1 - toU64 a)

/-! ## IEEE-754 binary64 payloads -/

/-- An `f64` value, represented by its 64-bit IEEE-754 pattern. -/
structure F64 where
  bits : Nat
deriving DecidableEq, Repr

namespace F64

/-- The quiet-NaN pattern, used as the (irrelevant) result of the opaque
arithmetic operations. -/
def qnan : F64 := ⟨0x7ff8000000000000⟩

/-- IEEE: the value is a NaN (exponent all ones, non-zero mantissa). -/
def isNaN (x : F64) : Bool := (x.bits / 2 ^ 52) % 2 ^ 11 == 0x7ff && x.bits % 2 ^ 52 != 0

/-- Rust `x == 0.0`: true exactly for `+0.0` and `-0.0`. -/
def isZero (x : F64) : Bool := x.bits % 2 ^ 63 == 0 && !x.isNaN

/-- Rust `x < 0.0`: sign bit set, not a NaN, not `-0.0`. -/
def isNeg (x : F64) : Bool := x.bits > 2 ^ 63 && !x.isNaN

/-- Rust `-x`: flip the sign bit. -/
def neg (x : F64) : F64 :=
  if x.bits < 2 ^ 63 then ⟨x.bits + 2 ^ 63⟩ else ⟨x.bits - 2 ^ 63⟩

/-- Order key of a non-NaN double: sign-magnitude ordering with `±0` equal. -/
def orderKey (x : F64) : Int :=
  if x.bits < 2 ^ 63 then (x.bits : Int) else -((x.bits : Int) - 2 ^ 63)

/-- Rust `f64::partial_cmp`: `none` iff either side is a NaN, otherwise the
IEEE order (in which `+0.0 = -0.0`). -/
def partialCmp (x y : F64) : Option Ordering :=
  if x.isNaN || y.isNaN then none else some (compare x.orderKey y.orderKey)

/-- Opaque result of `f64 + f64` (see the module comment). -/
def add (_ _ : F64) : F64 := qnan

/-- Opaque result of `f64 - f64`. -/
def sub (_ _ : F64) : F64 := qnan

/-- Opaque result of `f64 * f64`. -/
def mul (_ _ : F64) : F64 := qnan

/-- Opaque result of `f64 / f64`; Rust float division is total (never traps). -/
def div (_ _ : F64) : F64 := qnan

/-- Opaque result of `f64 % f64`; total in Rust. -/
def rem (_ _ : F64) : F64 := qnan

/-- Opaque result of `i64 as f64`. -/
def ofI64 (_ : Int) : F64 := qnan

/-- Opaque result of the saturating cast `f64 as i64`. -/
def toI64 (_ : F64) : Int := 0

end F64

/-! ## The value universe (`datamodel.rs`) -/

/-- Byte type (`u8`). -/
abbrev Byte := Fin 256

/-- `ValueType` from `datamodel.rs`, in declaration order (the numeric tag
order is the declaration order of the Rust enum). -/
inductive ValueType where
  | none | bool | integer | real | char | list | listWeak
  | bytes | bytesBuffer | stringValue | stringBuffer
  | function | nativeFn | unknown
deriving DecidableEq, Repr

/-- `Value` from `datamodel.rs`.  Heap handles carry an identity (`addr`)
and a snapshot of the cell's content; weak handles carry an `alive` flag
(whether the target still has a strong count). -/
inductive Value where
  | vnone
  | vbool (b : Bool)
  | vint (n : Int)
  | vreal (r : F64)
  | vchar (c : Char)
  | vlist (addr : Nat) (data : List Value)
  | vlistWeak (addr : Nat) (alive : Bool) (data : List Value)
  | vbytes (addr : Nat) (data : List Byte)
  | vbytesBuffer (addr : Nat) (data : List Byte)
  | vstringValue (addr : Nat) (data : List Byte)
  | vstringBuffer (addr : Nat) (data : List Byte)
  | vfunction (addr : Nat)
  | vnativeFn (addr : Nat)
  | vunknown (addr : Nat)

namespace Value

/-- `Value::get_type`. -/
def getType : Value → ValueType
  | vnone => .none
  | vbool _ => .bool
  | vint _ => .integer
  | vreal _ => .real
  | vchar _ => .char
  | vlist _ _ => .list
  | vlistWeak _ _ _ => .listWeak
  | vbytes _ _ => .bytes
  | vbytesBuffer _ _ => .bytesBuffer
  | vstringValue _ _ => .stringValue
  | vstringBuffer _ _ => .stringBuffer
  | vfunction _ => .function
  | vnativeFn _ => .nativeFn
  | vunknown _ => .unknown

/-- `ValueType as usize`: the numeric tag (Rust enum discriminant). -/
def tagIdx : Value → Nat
  | vnone => 0
  | vbool _ => 1
  | vint _ => 2
  | vreal _ => 3
  | vchar _ => 4
  | vlist _ _ => 5
  | vlistWeak _ _ _ => 6
  | vbytes _ _ => 7
  | vbytesBuffer _ _ => 8
  | vstringValue _ _ => 9
  | vstringBuffer _ _ => 10
  | vfunction _ => 11
  | vnativeFn _ => 12
  | vunknown _ => 13

end Value

/-- Lexicographic comparison of byte sequences (Rust `Vec<u8>`/`str` `Ord`). -/
def lexCmpBytes : List Byte → List Byte → Ordering
  | [], [] => .eq
  | [], _ :: _ => .lt
  | _ :: _, [] => .gt
  | a :: as_, b :: bs =>
    match compare a.val b.val with
    | .eq => lexCmpBytes as_ bs
    | o => o

/-- `pure_value_cmp` from `datamodel.rs`: called with `lhs` of lower-or-equal
tag; every unmatched combination falls through to `None` (incomparable). -/
def pureValueCmp (lhs rhs : Value) : Option Ordering :=
  match lhs, rhs with
  | .vnone, .vnone => some .eq
  | .vbool a, .vbool b => some (compare a b)
  | .vint a, .vint b => some (compare a b)
  | .vreal a, .vreal b => F64.partialCmp a b
  | .vchar a, .vchar b => some (compare a.val b.val)
  | .vlist a _, .vlist b _ => if a = b then some .eq else none
  | .vlistWeak a _ _, .vlistWeak b _ _ => if a = b then some .eq else none
  | .vbytes a xs, .vbytes b ys =>
    if a = b then some .eq else some (lexCmpBytes xs ys)
  | .vbytes _ xs, .vbytesBuffer _ ys => some (lexCmpBytes xs ys)
  | .vbytesBuffer a xs, .vbytesBuffer b ys =>
    if a = b then some .eq else some (lexCmpBytes xs ys)
  | .vstringValue a xs, .vstringValue b ys =>
    if a = b then some .eq else some (lexCmpBytes xs ys)
  | .vstringValue _ xs, .vstringBuffer _ ys => some (lexCmpBytes xs ys)
  | .vstringBuffer a xs, .vstringBuffer b ys =>
    if a = b then some .eq else some (lexCmpBytes xs ys)
  | .vfunction a, .vfunction b => if a = b then some .eq else none
  | .vnativeFn a, .vnativeFn b => some (compare a b)
  | .vunknown a, .vunknown b => if a = b then some .eq else none
  | _, _ => none

/-- `Value::cmp` from `datamodel.rs`: normalise to (lower tag, higher tag),
dispatch to `pureValueCmp`, and reverse the answer if the arguments were
swapped. -/
def Value.cmp (a b : Value) : Option Ordering :=
  if a.tagIdx > b.tagIdx then
    (pureValueCmp b a).map Ordering.swap
  else
    pureValueCmp a b

/-- The cross-tag behaviour of `Value.cmp` as the code actually implements
it: every pair of distinct tags is incomparable except the
`Bytes`/`BytesBuffer` and `StringValue`/`StringBuffer` pairs, which compare
their byte content lexicographically. -/
def crossCmpSpec (a b : Value) : Option Ordering :=
  match a, b with
  | .vbytes _ xs, .vbytesBuffer _ ys => some (lexCmpBytes xs ys)
  | .vbytesBuffer _ xs, .vbytes _ ys => some (Ordering.swap (lexCmpBytes ys xs))
  | .vstringValue _ xs, .vstringBuffer _ ys => some (lexCmpBytes xs ys)
  | .vstringBuffer _ xs, .vstringValue _ ys => some (Ordering.swap (lexCmpBytes ys xs))
  | _, _ => none

/-! ## Byte-string helpers for the codec and dispatcher -/

/-- Truncate a natural number to a byte. -/
def byteOf (x : Nat) : Byte := ⟨x % 256, by omega⟩

/-- Big-endian byte string (width `w`) of an unsigned value. -/
def bytesOfNatBE (w : Nat) (u : Nat) : List Byte :=
  (List.range w).map (fun k => byteOf (u / 2 ^ (8 * (w - 1 - k))))

/-- Unsigned big-endian value of a byte string. -/
def natOfBytesBE (bs : List Byte) : Nat := bs.foldl (fun acc b => acc * 256 + b.val) 0

/-- `i16::from_be_bytes`. -/
def i16be (bs : List Byte) : Int :=
  let u : Nat := natOfBytesBE bs % 2 ^ 16
  if u < 2 ^ 15 then (u : Int) else (u : Int) - 2 ^ 16

/-- `i32::from_be_bytes`. -/
def i32be (bs : List Byte) : Int :=
  let u : Nat := natOfBytesBE bs % 2 ^ 32
  if u < 2 ^ 31 then (u : Int) else (u : Int) - 2 ^ 32

/-- `i64::from_be_bytes`. -/
def i64be (bs : List Byte) : Int :=
  let u : Nat := natOfBytesBE bs % 2 ^ 64
  if u < 2 ^ 63 then (u : Int) else (u : Int) - 2 ^ 64

/-- `i32::to_be_bytes` (two's complement). -/
def i32ToBytes (x : Int) : List Byte := bytesOfNatBE 4 ((x % 2 ^ 32).toNat)

/-- `i64::to_be_bytes` (two's complement). -/
def i64ToBytes (x : Int) : List Byte := bytesOfNatBE 8 ((x % 2 ^ 64).toNat)

/-- Rust `slice::get(a..b)`: `Some` iff `a ≤ b ≤ len`. -/
def sliceGet {α : Type} (l : List α) (a b : Nat) : Option (List α) :=
  if a ≤ b ∧ b ≤ l.length then some ((l.drop a).take (b - a)) else none

/-- Rust `slice::get_mut(j..j+repl.len())` followed by `copy_from_slice`. -/
def setSlice (l : List Byte) (j : Nat) (repl : List Byte) : Option (List Byte) :=
  if j + repl.length ≤ l.length then
    some (l.take j ++ repl ++ l.drop (j + repl.length))
  else none

/-- `isize → i32` conversion (`try_into().ok()`). -/
def toI32? (x : Int) : Option Int :=
  if -(2 ^ 31) ≤ x ∧ x < 2 ^ 31 then some x else none

/-! ## The instruction AST and codec (`operation.rs`) -/

/-- `Operation` from `operation.rs` (jump targets are `usize` operation
indices; `LiteralReal` carries the `f64` payload). -/
inductive Operation where
  | none
  | add | sub | mul | div | rem | neg
  | shl | shr | and | or | xor | not
  | intToReal | realToInt | cmp
  | call (n : Byte) | ret
  | jump (n : Nat) | jumpZero (n : Nat) | jumpNeg (n : Nat)
  | literalNone | literalTrue | literalFalse
  | literalInteger (n : Int) | literalReal (r : F64)
  | frameLocalLoad (n : Byte) | frameLocalStore (n : Byte) | frameLocalSwap (n : Byte)
  | frameStackCopy | frameStackPop
  | listCreate | listPush | listPop | listDowngrade | listUpgrade
  | bytesBufferCreate
  | stringBufferCreate | stringGetCharAt | stringGetChars
  | seqGet | seqSet | seqGetSlice | seqSetSlice | seqAppend | seqLen | seqResize
deriving DecidableEq, Repr

/-- First pass of `assemble`: emit bytes, record each instruction's start
offset, and record `(operand byte position, target operation index)` for
each jump (with placeholder zero operands). -/
def emitGo : List Operation → List Byte → List Nat → List (Nat × Nat) →
    (List Byte × List Nat × List (Nat × Nat))
  | [], out, offs, js => (out, offs, js)
  | op :: rest, out, offs, js =>
    let offs := offs ++ [out.length]
    match op with
    | .none => emitGo rest (out ++ [1]) offs js
    | .add => emitGo rest (out ++ [2]) offs js
    | .sub => emitGo rest (out ++ [3]) offs js
    | .mul => emitGo rest (out ++ [4]) offs js
    | .div => emitGo rest (out ++ [5]) offs js
    | .rem => emitGo rest (out ++ [6]) offs js
    | .neg => emitGo rest (out ++ [7]) offs js
    | .shl => emitGo rest (out ++ [8]) offs js
    | .shr => emitGo rest (out ++ [9]) offs js
    | .and => emitGo rest (out ++ [10]) offs js
    | .or => emitGo rest (out ++ [11]) offs js
    | .xor => emitGo rest (out ++ [12]) offs js
    | .not => emitGo rest (out ++ [13]) offs js
    | .intToReal => emitGo rest (out ++ [14]) offs js
    | .realToInt => emitGo rest (out ++ [15]) offs js
    | .cmp => emitGo rest (out ++ [19]) offs js
    | .call n => emitGo rest (out ++ [20, n]) offs js
    | .ret => emitGo rest (out ++ [21]) offs js
    | .jump n =>
      emitGo rest (out ++ [22, 0, 0, 0, 0]) offs (js ++ [(out.length + 1, n)])
    | .jumpZero n =>
      emitGo rest (out ++ [23, 0, 0, 0, 0]) offs (js ++ [(out.length + 1, n)])
    | .jumpNeg n =>
      emitGo rest (out ++ [24, 0, 0, 0, 0]) offs (js ++ [(out.length + 1, n)])
    | .literalNone => emitGo rest (out ++ [30]) offs js
    | .literalTrue => emitGo rest (out ++ [31]) offs js
    | .literalFalse => emitGo rest (out ++ [32]) offs js
    | .literalInteger n => emitGo rest (out ++ [33] ++ i64ToBytes n) offs js
    | .literalReal r => emitGo rest (out ++ [34] ++ bytesOfNatBE 8 r.bits) offs js
    | .frameLocalLoad n => emitGo rest (out ++ [40, n]) offs js
    | .frameLocalStore n => emitGo rest (out ++ [41, n]) offs js
    | .frameLocalSwap n => emitGo rest (out ++ [42, n]) offs js
    | .frameStackCopy => emitGo rest (out ++ [43]) offs js
    | .frameStackPop => emitGo rest (out ++ [44]) offs js
    | .listCreate => emitGo rest (out ++ [50]) offs js
    | .listPush => emitGo rest (out ++ [51]) offs js
    | .listPop => emitGo rest (out ++ [52]) offs js
    | .listDowngrade => emitGo rest (out ++ [53]) offs js
    | .listUpgrade => emitGo rest (out ++ [54]) offs js
    | .bytesBufferCreate => emitGo rest (out ++ [55]) offs js
    | .stringBufferCreate => emitGo rest (out ++ [60]) offs js
    | .stringGetCharAt => emitGo rest (out ++ [61]) offs js
    | .stringGetChars => emitGo rest (out ++ [62]) offs js
    | .seqGet => emitGo rest (out ++ [70]) offs js
    | .seqSet => emitGo rest (out ++ [71]) offs js
    | .seqGetSlice => emitGo rest (out ++ [72]) offs js
    | .seqSetSlice => emitGo rest (out ++ [73]) offs js
    | .seqAppend => emitGo rest (out ++ [74]) offs js
    | .seqLen => emitGo rest (out ++ [75]) offs js
    | .seqResize => emitGo rest (out ++ [76]) offs js

/-- Second pass of `assemble`: patch each jump operand with
`n = j - offsets[dst] - 1` (where `j` is the operand's byte position),
failing if the target operation index is out of range, the delta does not
fit an `i32`, or the patch slice is out of bounds. -/
def patchJumps (out : List Byte) (offs : List Nat) : List (Nat × Nat) → Option (List Byte)
  | [] => some out
  | (j, dst) :: rest => do
    let i ← offs[dst]?
    let n ← toI32? ((j : Int) - (i : Int) - 1)
    let out' ← setSlice out j (i32ToBytes n)
    patchJumps out' offs rest

/-- `assemble` from `operation.rs`. -/
def assemble (ops : List Operation) : Option (List Byte) :=
  match emitGo ops [] [] [] with
  | (out, offs, js) => patchJumps out offs js

/-- The absolute byte target the disassembler computes for a jump read at
operand end `c` with operand `dst`: `(cursor as i32 + dst) as usize`. -/
def jumpTargetByte (c : Nat) (dst : Int) : Nat :=
  ((wrap32 (wrap32 (c : Int) + dst)) % 2 ^ 64).toNat

/-- The byte-walking loop of `disassemble`: pushes one `Operation` per
opcode (with placeholder `0` jump targets), records each instruction's
start offset, and records `(operation index, absolute byte target)` for
each jump.  Fails on a truncated operand or an unknown opcode.  The `fuel`
parameter only bounds the recursion: every iteration consumes at least one
byte, so the `bc.length + 1` supplied by `disassemble` can never run out. -/
def disGo (fuel : Nat) (bc : List Byte) (cursor : Nat) (offs : List Nat)
    (js : List (Nat × Nat)) (ops : List Operation) :
    Option (List Operation × List Nat × List (Nat × Nat)) :=
  match fuel with
  | 0 => none
  | fuel + 1 =>
  match bc[cursor]? with
  | Option.none => some (ops, offs, js)
  | Option.some b =>
    let offs' := offs ++ [cursor]
    let c := cursor + 1
    match b.val with
    | 1 => disGo fuel bc c offs' js (ops ++ [Operation.none])
    | 2 => disGo fuel bc c offs' js (ops ++ [Operation.add])
    | 3 => disGo fuel bc c offs' js (ops ++ [Operation.sub])
    | 4 => disGo fuel bc c offs' js (ops ++ [Operation.mul])
    | 5 => disGo fuel bc c offs' js (ops ++ [Operation.div])
    | 6 => disGo fuel bc c offs' js (ops ++ [Operation.rem])
    | 7 => disGo fuel bc c offs' js (ops ++ [Operation.neg])
    | 8 => disGo fuel bc c offs' js (ops ++ [Operation.shl])
    | 9 => disGo fuel bc c offs' js (ops ++ [Operation.shr])
    | 10 => disGo fuel bc c offs' js (ops ++ [Operation.and])
    | 11 => disGo fuel bc c offs' js (ops ++ [Operation.or])
    | 12 => disGo fuel bc c offs' js (ops ++ [Operation.xor])
    | 13 => disGo fuel bc c offs' js (ops ++ [Operation.not])
    | 14 => disGo fuel bc c offs' js (ops ++ [Operation.intToReal])
    | 15 => disGo fuel bc c offs' js (ops ++ [Operation.realToInt])
    | 19 => disGo fuel bc c offs' js (ops ++ [Operation.cmp])
    | 20 =>
      match bc[c]? with
      | Option.none => none
      | Option.some n => disGo fuel bc (c + 1) offs' js (ops ++ [Operation.call n])
    | 21 => disGo fuel bc c offs' js (ops ++ [Operation.ret])
    | 22 =>
      match sliceGet bc c (c + 4) with
      | Option.none => none
      | Option.some bs =>
        disGo fuel bc (c + 4) offs' (js ++ [(ops.length, jumpTargetByte (c + 4) (i32be bs))])
          (ops ++ [Operation.jump 0])
    | 23 =>
      match sliceGet bc c (c + 4) with
      | Option.none => none
      | Option.some bs =>
        disGo fuel bc (c + 4) offs' (js ++ [(ops.length, jumpTargetByte (c + 4) (i32be bs))])
          (ops ++ [Operation.jumpZero 0])
    | 24 =>
      match sliceGet bc c (c + 4) with
      | Option.none => none
      | Option.some bs =>
        disGo fuel bc (c + 4) offs' (js ++ [(ops.length, jumpTargetByte (c + 4) (i32be bs))])
          (ops ++ [Operation.jumpNeg 0])
    | 30 => disGo fuel bc c offs' js (ops ++ [Operation.literalNone])
    | 31 => disGo fuel bc c offs' js (ops ++ [Operation.literalTrue])
    | 32 => disGo fuel bc c offs' js (ops ++ [Operation.literalFalse])
    | 33 =>
      match sliceGet bc c (c + 8) with
      | Option.none => none
      | Option.some bs =>
        disGo fuel bc (c + 8) offs' js (ops ++ [Operation.literalInteger (i64be bs)])
    | 34 =>
      match sliceGet bc c (c + 8) with
      | Option.none => none
      | Option.some bs =>
        disGo fuel bc (c + 8) offs' js (ops ++ [Operation.literalReal ⟨natOfBytesBE bs⟩])
    | 40 =>
      match bc[c]? with
      | Option.none => none
      | Option.some n => disGo fuel bc (c + 1) offs' js (ops ++ [Operation.frameLocalLoad n])
    | 41 =>
      match bc[c]? with
      | Option.none => none
      | Option.some n => disGo fuel bc (c + 1) offs' js (ops ++ [Operation.frameLocalStore n])
    | 42 =>
      match bc[c]? with
      | Option.none => none
      | Option.some n => disGo fuel bc (c + 1) offs' js (ops ++ [Operation.frameLocalSwap n])
    | 43 => disGo fuel bc c offs' js (ops ++ [Operation.frameStackCopy])
    | 44 => disGo fuel bc c offs' js (ops ++ [Operation.frameStackPop])
    | 50 => disGo fuel bc c offs' js (ops ++ [Operation.listCreate])
    | 51 => disGo fuel bc c offs' js (ops ++ [Operation.listPush])
    | 52 => disGo fuel bc c offs' js (ops ++ [Operation.listPop])
    | 53 => disGo fuel bc c offs' js (ops ++ [Operation.listDowngrade])
    | 54 => disGo fuel bc c offs' js (ops ++ [Operation.listUpgrade])
    | 55 => disGo fuel bc c offs' js (ops ++ [Operation.bytesBufferCreate])
    | 60 => disGo fuel bc c offs' js (ops ++ [Operation.stringBufferCreate])
    | 61 => disGo fuel bc c offs' js (ops ++ [Operation.stringGetCharAt])
    | 62 => disGo fuel bc c offs' js (ops ++ [Operation.stringGetChars])
    | 70 => disGo fuel bc c offs' js (ops ++ [Operation.seqGet])
    | 71 => disGo fuel bc c offs' js (ops ++ [Operation.seqSet])
    | 72 => disGo fuel bc c offs' js (ops ++ [Operation.seqGetSlice])
    | 73 => disGo fuel bc c offs' js (ops ++ [Operation.seqSetSlice])
    | 74 => disGo fuel bc c offs' js (ops ++ [Operation.seqAppend])
    | 75 => disGo fuel bc c offs' js (ops ++ [Operation.seqLen])
    | 76 => disGo fuel bc c offs' js (ops ++ [Operation.seqResize])
    | _ => none

/-- Rewriting one decoded jump to its operation-index target
(the `match &mut ops[i]` arm of `disassemble`; the non-jump case is
`unreachable!()` in the source and modelled as failure). -/
def retarget (op : Operation) (dst : Nat) : Option Operation :=
  match op with
  | .jump _ => some (.jump dst)
  | .jumpZero _ => some (.jumpZero dst)
  | .jumpNeg _ => some (.jumpNeg dst)
  | _ => none

/-- The fix-up loop of `disassemble`: map each recorded absolute byte
target back to the operation index whose start offset equals it
(`offsets.binary_search`, here realised as a search in the sorted,
duplicate-free offset list), failing on an unmatched target. -/
def remapJumps (ops : List Operation) (offs : List Nat) : List (Nat × Nat) → Option (List Operation)
  | [] => some ops
  | (i, j) :: rest => do
    let dst ← offs.findIdx? (fun o => o == j)
    let op ← ops[i]?
    let op' ← retarget op dst
    remapJumps (ops.set i op') offs rest

/-- `disassemble` from `operation.rs`. -/
def disassemble (bc : List Byte) : Option (List Operation) :=
  match disGo (bc.length + 1) bc 0 [] [] [] with
  | Option.none => none
  | Option.some (ops, offs, js) => remapJumps ops offs js

/-- C1: the assembler and disassembler are not inverse.  For the two-
operation program `[Jump → operation 1, None]` the assembler patches the
operand with `delta = j - i - 1 = 1 - 5 - 1 = -5`, but the decoder
recomputes the target as `cursor_after_operand + delta = 5 - 5 = 0`, so
disassembly succeeds and yields `[Jump → operation 0, None]`, not the
original program. -/
theorem assemble_disassemble_roundtrip_fails :
    assemble [Operation.jump 1, Operation.none] =
      some [(22 : Byte), 255, 255, 255, 251, 1] ∧
    (assemble [Operation.jump 1, Operation.none]).bind disassemble =
      some [Operation.jump 0, Operation.none] ∧
    [Operation.jump 0, Operation.none] ≠ [Operation.jump 1, Operation.none] := by
  refine ⟨by decide, by decide, by decide⟩

/-! ## Errors, directives, frames (`lib.rs`, `machine.rs`) -/

/-- `VmError` from `lib.rs`. -/
inductive VmError where
  | stackEmpty
  | divByZero
  | frameRead (i : Byte)
  | indexRead (i : Int)
  | indexWrite (i : Int)
  | sliceRead (a b : Int)
  | bytecodeRead (pos : Nat)
  | typeErr (t : ValueType) (pos : Byte)

/-- `VmAction` from `lib.rs` (the host directive).  `Call` carries the
`Function` handle's identity, `CallNative` the function pointer's. -/
inductive VmAction where
  | none
  | jump (dst : Int)
  | call (f : Nat) (args : List Value)
  | callNative (f : Nat) (args : List Value)
  | ret (v : Value)

/-- `CallFrame` from `machine.rs`: operand stack (head = top), local slots,
instruction cursor, bytecode. -/
structure Frame where
  stack : List Value
  locals : List Value
  cursor : Nat
  bytecode : List Byte

/-- Result of one dispatcher step: `Ok(action)` or `Err(error)` together
with the frame as the step leaves it, or a Rust panic (`todo!()`). -/
inductive StepRes where
  | ok (a : VmAction) (f : Frame)
  | err (e : VmError) (f : Frame)
  | panicked (f : Frame)

/-! ## UTF-8 helpers (`datamodel.rs` strings) -/

/-- Rust `str::is_char_boundary`: `true` at 0, at the length, and at any
index whose byte is not a UTF-8 continuation byte; `false` past the end. -/
def isCharBoundary (bs : List Byte) (i : Nat) : Bool :=
  i == 0 ||
    match bs[i]? with
    | Option.some b => b.val < 0x80 || 0xC0 ≤ b.val
    | Option.none => i == bs.length

/-- Decode the UTF-8 scalar starting at byte `i` (meaningful only under the
valid-UTF-8 invariant with `i` a boundary strictly before the end). -/
def utf8DecodeAt (bs : List Byte) (i : Nat) : Char :=
  let b0 := (bs[i]?.getD 0).val
  let c1 := (bs[i + 1]?.getD 0).val % 64
  let c2 := (bs[i + 2]?.getD 0).val % 64
  let c3 := (bs[i + 3]?.getD 0).val % 64
  let cp :=
    if b0 < 0x80 then b0
    else if b0 < 0xE0 then (b0 - 0xC0) * 64 + c1
    else if b0 < 0xF0 then (b0 - 0xE0) * 4096 + c1 * 64 + c2
    else (b0 - 0xF0) * 262144 + c1 * 4096 + c2 * 64 + c3
  Char.ofNat cp

/-- Rust `str::get(i..)`: the byte suffix, or `None` when `i` is not a char
boundary (in particular when it is past the end). -/
def strGet (bs : List Byte) (i : Nat) : Option (List Byte) :=
  if isCharBoundary bs i then some (bs.drop i) else none

/-- Rust `s.chars().next()`: the first scalar of a (valid-UTF-8) byte
string, or `None` when it is empty. -/
def firstCharOf (bs : List Byte) : Option Char :=
  match bs with
  | [] => none
  | _ :: _ => some (utf8DecodeAt bs 0)

/-- `StringValue::get_char_at` / `StringBuffer::get_char_at`:
`self.as_str().get(index..)?.chars().next()`. -/
def getCharAt (bs : List Byte) (i : Nat) : Option Char :=
  (strGet bs i).bind firstCharOf

/-- Number of bytes of the scalar whose encoding starts with byte `b0`. -/
def utf8Width (b0 : Nat) : Nat :=
  if b0 < 0x80 then 1 else if b0 < 0xE0 then 2 else if b0 < 0xF0 then 3 else 4

/-- Fuelled scalar-by-scalar walk for `get_chars` (each scalar consumes at
least one byte, so the `length + 1` fuel supplied below cannot run out). -/
def strCharsGo (fuel : Nat) (bs : List Byte) : List Char :=
  match fuel, bs with
  | 0, _ => []
  | _, [] => []
  | fuel + 1, b :: rest =>
    utf8DecodeAt (b :: rest) 0 :: strCharsGo fuel (rest.drop (utf8Width b.val - 1))

/-- `StringValue::get_chars` / `StringBuffer::get_chars` (as the scalar
list; the dispatcher wraps it into a fresh `List` of `Char` values). -/
def strChars (bs : List Byte) : List Char := strCharsGo (bs.length + 1) bs

/-! ## Container and frame helpers -/

/-- `FrameData::get_mut_or_resize`: grow the local slots to include `i`,
padding with `None`. -/
def growLocals (ls : List Value) (i : Nat) : List Value :=
  if i < ls.length then ls else ls ++ List.replicate (i + 1 - ls.length) Value.vnone

/-- `FrameData::store`. -/
def storeLocal (ls : List Value) (i : Nat) (v : Value) : List Value :=
  (growLocals ls i).set i v

/-- `List::resize` (`resize_with`, padding with `None`). -/
def listResize (d : List Value) (n : Nat) : List Value :=
  if n ≤ d.length then d.take n else d ++ List.replicate (n - d.length) Value.vnone

/-- Pop `n` values off a stack in pop order (`for _ in 0..n { pop()? }`);
`none` when the stack runs dry mid-loop (it is then fully consumed). -/
def popNArgs : Nat → List Value → Option (List Value × List Value)
  | 0, s => some ([], s)
  | _ + 1, [] => none
  | n + 1, v :: s =>
    match popNArgs n s with
    | Option.some (args, s') => some (v :: args, s')
    | Option.none => none

/-! ## The single-step dispatchers

`opExec`/`opStep` embed `parse_and_run` from `op.rs` (the module wired into
`lib.rs`: 2-byte `i16` jump operands, `JUMP_ZERO` accepting `None` as zero,
`JUMP_NEG` rejecting `None`).  `operationExec`/`operationStep` embed
`parse_and_run` from `operation.rs` (4-byte `i32` jump operands, `JUMP_ZERO`
rejecting `None`, `JUMP_NEG` accepting `None` as negative).  In both, `c` is
the local cursor already advanced past the opcode byte; an error returns
early without writing the cursor back, so the frame keeps its old cursor
(while stack pops that already happened remain visible). -/

/-- The `math_op!` macro body (ADD/SUB/MUL): both operands `Integer` or both
`Real`, else a `Type` error against the offending operand. -/
def binMath (f : Frame) (c : Nat) (iop : Int → Int → Int) (rop : F64 → F64 → F64) : StepRes :=
  match f.stack with
  | [] => .err .stackEmpty f
  | rhs :: rest =>
    match rest with
    | [] => .err .stackEmpty { f with stack := [] }
    | lhs :: rest2 =>
      match lhs, rhs with
      | .vint a, .vint b => .ok .none { f with stack := .vint (iop a b) :: rest2, cursor := c }
      | .vint _, _ => .err (.typeErr rhs.getType 0) { f with stack := rest2 }
      | .vreal a, .vreal b => .ok .none { f with stack := .vreal (rop a b) :: rest2, cursor := c }
      | .vreal _, _ => .err (.typeErr rhs.getType 0) { f with stack := rest2 }
      | _, _ => .err (.typeErr lhs.getType 1) { f with stack := rest2 }

/-- The `int_op!` macro body (SHL/SHR/AND/OR/XOR): both operands `Integer`. -/
def binInt (f : Frame) (c : Nat) (iop : Int → Int → Int) : StepRes :=
  match f.stack with
  | [] => .err .stackEmpty f
  | rhs :: rest =>
    match rest with
    | [] => .err .stackEmpty { f with stack := [] }
    | lhs :: rest2 =>
      match lhs, rhs with
      | .vint a, .vint b => .ok .none { f with stack := .vint (iop a b) :: rest2, cursor := c }
      | .vint _, _ => .err (.typeErr rhs.getType 0) { f with stack := rest2 }
      | _, _ => .err (.typeErr lhs.getType 1) { f with stack := rest2 }

/-- The DIV/REM arms.  `checked_div`/`checked_rem` are `None` exactly when
the divisor is zero or the division overflows (`i64::MIN / -1`), which the
dispatcher turns into `DivByZero`; the real case uses IEEE `/` and `%`,
which are total. -/
def divRem (f : Frame) (c : Nat) (iop : Int → Int → Int) (rop : F64 → F64 → F64) : StepRes :=
  match f.stack with
  | [] => .err .stackEmpty f
  | rhs :: rest =>
    match rest with
    | [] => .err .stackEmpty { f with stack := [] }
    | lhs :: rest2 =>
      match lhs, rhs with
      | .vint a, .vint b =>
        if b = 0 ∨ (a = -(2 ^ 63) ∧ b = -1) then .err .divByZero { f with stack := rest2 }
        else .ok .none { f with stack := .vint (iop a b) :: rest2, cursor := c }
      | .vint _, _ => .err (.typeErr rhs.getType 0) { f with stack := rest2 }
      | .vreal a, .vreal b => .ok .none { f with stack := .vreal (rop a b) :: rest2, cursor := c }
      | .vreal _, _ => .err (.typeErr rhs.getType 0) { f with stack := rest2 }
      | _, _ => .err (.typeErr lhs.getType 1) { f with stack := rest2 }

/-- One decoded instruction of `parse_and_run` from `op.rs`, given the
opcode byte's value and the local cursor `c` (already past the opcode). -/
def opExec (op : Nat) (c : Nat) (f : Frame) : StepRes :=
  match op with
  | 1 => .ok .none { f with cursor := c }
  | 2 => binMath f c (fun a b => wrap64 (a + b)) F64.add
  | 3 => binMath f c (fun a b => wrap64 (a - b)) F64.sub
  | 4 => binMath f c (fun a b => wrap64 (a * b)) F64.mul
  | 5 => divRem f c Int.tdiv F64.div
  | 6 => divRem f c Int.tmod F64.rem
  | 7 =>
    match f.stack with
    | [] => .err .stackEmpty f
    | t :: rest =>
      match t with
      | .vint n => .ok .none { f with stack := .vint (wrap64 (-n)) :: rest, cursor := c }
      | .vreal r => .ok .none { f with stack := .vreal r.neg :: rest, cursor := c }
      | e => .err (.typeErr e.getType 0) { f with stack := rest }
  | 8 => binInt f c i64Shl
  | 9 => binInt f c i64Shr
  | 10 => binInt f c i64And
  | 11 => binInt f c i64Or
  | 12 => binInt f c i64Xor
  | 13 =>
    match f.stack with
    | [] => .err .stackEmpty f
    | t :: rest =>
      match t with
      | .vint n => .ok .none { f with stack := .vint (i64Not n) :: rest, cursor := c }
      | e => .err (.typeErr e.getType 0) { f with stack := rest }
  | 14 =>
    match f.stack with
    | [] => .err .stackEmpty f
    | t :: rest =>
      match t with
      | .vint n => .ok .none { f with stack := .vreal (F64.ofI64 n) :: rest, cursor := c }
      | .vreal r => .ok .none { f with stack := .vreal r :: rest, cursor := c }
      | e => .err (.typeErr e.getType 0) { f with stack := rest }
  | 15 =>
    match f.stack with
    | [] => .err .stackEmpty f
    | t :: rest =>
      match t with
      | .vint n => .ok .none { f with stack := .vint n :: rest, cursor := c }
      | .vreal r => .ok .none { f with stack := .vint r.toI64 :: rest, cursor := c }
      | e => .err (.typeErr e.getType 0) { f with stack := rest }
  | 19 =>
    match f.stack with
    | [] => .err .stackEmpty f
    | rhs :: rest =>
      match rest with
      | [] => .err .stackEmpty { f with stack := [] }
      | lhs :: rest2 =>
        let out :=
          match Value.cmp lhs rhs with
          | Option.some Ordering.lt => Value.vint (-1)
          | Option.some Ordering.eq => Value.vint 0
          | Option.some Ordering.gt => Value.vint 1
          | Option.none => Value.vnone
        .ok .none { f with stack := out :: rest2, cursor := c }
  | 20 =>
    match f.bytecode[c]? with
    | Option.none => .err (.bytecodeRead c) f
    | Option.some nb =>
      match f.stack with
      | [] => .err .stackEmpty f
      | tgt :: rest =>
        match popNArgs nb.val rest with
        | Option.none => .err .stackEmpty { f with stack := [] }
        | Option.some (args, rest') =>
          match tgt with
          | .vfunction a => .ok (.call a args) { f with stack := rest', cursor := c + 1 }
          | .vnativeFn a => .ok (.callNative a args) { f with stack := rest', cursor := c + 1 }
          | e => .err (.typeErr e.getType 0) { f with stack := rest' }
  | 21 =>
    match f.stack with
    | [] => .err .stackEmpty f
    | v :: rest => .ok (.ret v) { f with stack := rest, cursor := c }
  | 22 =>
    match sliceGet f.bytecode c (c + 2) with
    | Option.none => .err (.bytecodeRead c) f
    | Option.some bs => .ok (.jump (i16be bs)) { f with cursor := c + 2 }
  | 23 =>
    match sliceGet f.bytecode c (c + 2) with
    | Option.none => .err (.bytecodeRead c) f
    | Option.some bs =>
      match f.stack with
      | [] => .err .stackEmpty f
      | v :: rest =>
        match v with
        | .vnone => .ok (.jump (i16be bs)) { f with stack := rest, cursor := c + 2 }
        | .vbool b =>
          .ok (if b then .none else .jump (i16be bs)) { f with stack := rest, cursor := c + 2 }
        | .vint n =>
          .ok (if n = 0 then .jump (i16be bs) else .none) { f with stack := rest, cursor := c + 2 }
        | .vreal r =>
          .ok (if r.isZero then .jump (i16be bs) else .none) { f with stack := rest, cursor := c + 2 }
        | e => .err (.typeErr e.getType 0) { f with stack := rest }
  | 24 =>
    match sliceGet f.bytecode c (c + 2) with
    | Option.none => .err (.bytecodeRead c) f
    | Option.some bs =>
      match f.stack with
      | [] => .err .stackEmpty f
      | v :: rest =>
        match v with
        | .vint n =>
          .ok (if n < 0 then .jump (i16be bs) else .none) { f with stack := rest, cursor := c + 2 }
        | .vreal r =>
          .ok (if r.isNeg then .jump (i16be bs) else .none) { f with stack := rest, cursor := c + 2 }
        | e => .err (.typeErr e.getType 0) { f with stack := rest }
  | 30 => .ok .none { f with stack := Value.vnone :: f.stack, cursor := c }
  | 31 => .ok .none { f with stack := Value.vbool true :: f.stack, cursor := c }
  | 32 => .ok .none { f with stack := Value.vbool false :: f.stack, cursor := c }
  | 33 =>
    match sliceGet f.bytecode c (c + 8) with
    | Option.none => .err (.bytecodeRead c) f
    | Option.some bs => .ok .none { f with stack := Value.vint (i64be bs) :: f.stack, cursor := c + 8 }
  | 34 =>
    match sliceGet f.bytecode c (c + 8) with
    | Option.none => .err (.bytecodeRead c) f
    | Option.some bs =>
      .ok .none { f with stack := Value.vreal ⟨natOfBytesBE bs⟩ :: f.stack, cursor := c + 8 }
  | 40 =>
    match f.bytecode[c]? with
    | Option.none => .err (.bytecodeRead c) f
    | Option.some i =>
      match f.locals[i.val]? with
      | Option.none => .err (.frameRead i) f
      | Option.some v => .ok .none { f with stack := v :: f.stack, cursor := c + 1 }
  | 41 =>
    match f.bytecode[c]? with
    | Option.none => .err (.bytecodeRead c) f
    | Option.some i =>
      match f.stack with
      | [] => .err .stackEmpty f
      | v :: rest =>
        .ok .none { f with stack := rest, locals := storeLocal f.locals i.val v, cursor := c + 1 }
  | 42 =>
    match f.bytecode[c]? with
    | Option.none => .err (.bytecodeRead c) f
    | Option.some i =>
      match f.stack with
      | [] => .err .stackEmpty f
      | t :: rest =>
        let ls := growLocals f.locals i.val
        .ok .none
          { f with stack := ls.getD i.val Value.vnone :: rest, locals := ls.set i.val t,
                   cursor := c + 1 }
  | 43 =>
    match f.stack with
    | [] => .err .stackEmpty f
    | t :: rest => .ok .none { f with stack := t :: t :: rest, cursor := c }
  | 44 =>
    match f.stack with
    | [] => .err .stackEmpty f
    | _ :: rest => .ok .none { f with stack := rest, cursor := c }
  | 50 => .ok .none { f with stack := Value.vlist 0 [] :: f.stack, cursor := c }
  | 51 =>
    match f.stack with
    | [] => .err .stackEmpty f
    | _ele :: rest =>
      match rest with
      | [] => .err .stackEmpty { f with stack := [] }
      | l :: rest2 =>
        match l with
        | .vlist _ _ => .ok .none { f with stack := rest2, cursor := c }
        | e => .err (.typeErr e.getType 1) { f with stack := rest2 }
  | 52 =>
    match f.stack with
    | [] => .err .stackEmpty f
    | l :: rest =>
      match l with
      | .vlist _ d =>
        match d.getLast? with
        | Option.none => .err (.indexRead 0) { f with stack := rest }
        | Option.some v => .ok .none { f with stack := v :: rest, cursor := c }
      | e => .err (.typeErr e.getType 0) { f with stack := rest }
  | 53 =>
    match f.stack with
    | [] => .err .stackEmpty f
    | l :: rest =>
      match l with
      | .vlist a d => .ok .none { f with stack := Value.vlistWeak a true d :: rest, cursor := c }
      | e => .err (.typeErr e.getType 0) { f with stack := rest }
  | 54 =>
    match f.stack with
    | [] => .err .stackEmpty f
    | w :: rest =>
      match w with
      | .vlistWeak a alive d =>
        .ok .none
          { f with stack := (if alive then Value.vlist a d else Value.vnone) :: rest, cursor := c }
      | e => .err (.typeErr e.getType 0) { f with stack := rest }
  | 55 => .ok .none { f with stack := Value.vbytesBuffer 0 [] :: f.stack, cursor := c }
  | 60 => .ok .none { f with stack := Value.vstringBuffer 0 [] :: f.stack, cursor := c }
  | 61 =>
    match f.stack with
    | [] => .err .stackEmpty f
    | iv :: rest =>
      match iv with
      | .vint n =>
        match rest with
        | [] => .err .stackEmpty { f with stack := [] }
        | s :: rest2 =>
          match s with
          | .vstringValue _ bs =>
            let out := match getCharAt bs (usizeOfI64 n) with
              | Option.some ch => Value.vchar ch
              | Option.none => Value.vnone
            .ok .none { f with stack := out :: rest2, cursor := c }
          | .vstringBuffer _ bs =>
            let out := match getCharAt bs (usizeOfI64 n) with
              | Option.some ch => Value.vchar ch
              | Option.none => Value.vnone
            .ok .none { f with stack := out :: rest2, cursor := c }
          | e => .err (.typeErr e.getType 1) { f with stack := rest2 }
      | e => .err (.typeErr e.getType 0) { f with stack := rest }
  | 62 =>
    match f.stack with
    | [] => .err .stackEmpty f
    | s :: rest =>
      match s with
      | .vstringValue _ bs =>
        .ok .none
          { f with stack := Value.vlist 0 ((strChars bs).map Value.vchar) :: rest, cursor := c }
      | .vstringBuffer _ bs =>
        .ok .none
          { f with stack := Value.vlist 0 ((strChars bs).map Value.vchar) :: rest, cursor := c }
      | e => .err (.typeErr e.getType 0) { f with stack := rest }
  | 70 =>
    match f.stack with
    | [] => .err .stackEmpty f
    | iv :: rest =>
      match iv with
      | .vint n =>
        match rest with
        | [] => .err .stackEmpty { f with stack := [] }
        | s :: rest2 =>
          match s with
          | .vlist _ d =>
            match d[usizeOfI64 n]? with
            | Option.some v => .ok .none { f with stack := v :: rest2, cursor := c }
            | Option.none => .err (.indexRead n) { f with stack := rest2 }
          | .vbytes _ d =>
            match d[usizeOfI64 n]? with
            | Option.some b => .ok .none { f with stack := Value.vint b.val :: rest2, cursor := c }
            | Option.none => .err (.indexRead n) { f with stack := rest2 }
          | .vbytesBuffer _ d =>
            match d[usizeOfI64 n]? with
            | Option.some b => .ok .none { f with stack := Value.vint b.val :: rest2, cursor := c }
            | Option.none => .err (.indexRead n) { f with stack := rest2 }
          | e => .err (.typeErr e.getType 1) { f with stack := rest2 }
      | e => .err (.typeErr e.getType 0) { f with stack := rest }
  | 71 =>
    match f.stack with
    | [] => .err .stackEmpty f
    | v :: rest =>
      match rest with
      | [] => .err .stackEmpty { f with stack := [] }
      | iv :: rest2 =>
        match iv with
        | .vint n =>
          match rest2 with
          | [] => .err .stackEmpty { f with stack := [] }
          | s :: rest3 =>
            match s with
            | .vlist _ d =>
              if usizeOfI64 n < d.length then .ok .none { f with stack := rest3, cursor := c }
              else .err (.indexWrite n) { f with stack := rest3 }
            | .vbytesBuffer _ d =>
              match v with
              | .vint _ =>
                if usizeOfI64 n < d.length then .ok .none { f with stack := rest3, cursor := c }
                else .err (.indexWrite n) { f with stack := rest3 }
              | e => .err (.typeErr e.getType 0) { f with stack := rest3 }
            | e => .err (.typeErr e.getType 2) { f with stack := rest3 }
        | e => .err (.typeErr e.getType 1) { f with stack := rest2 }
  | 72 =>
    match f.stack with
    | [] => .err .stackEmpty f
    | ev :: rest =>
      match ev with
      | .vint en =>
        match rest with
        | [] => .err .stackEmpty { f with stack := [] }
        | sv :: rest2 =>
          match sv with
          | .vint sn =>
            match rest2 with
            | [] => .err .stackEmpty { f with stack := [] }
            | s :: rest3 =>
              match s with
              | .vlist _ d =>
                match sliceGet d (usizeOfI64 sn) (usizeOfI64 en) with
                | Option.some sl =>
                  .ok .none { f with stack := Value.vlist 0 sl :: rest3, cursor := c }
                | Option.none => .err (.sliceRead sn en) { f with stack := rest3 }
              | .vbytes _ d =>
                match sliceGet d (usizeOfI64 sn) (usizeOfI64 en) with
                | Option.some sl =>
                  .ok .none { f with stack := Value.vbytesBuffer 0 sl :: rest3, cursor := c }
                | Option.none => .err (.sliceRead sn en) { f with stack := rest3 }
              | .vbytesBuffer _ d =>
                match sliceGet d (usizeOfI64 sn) (usizeOfI64 en) with
                | Option.some sl =>
                  .ok .none { f with stack := Value.vbytesBuffer 0 sl :: rest3, cursor := c }
                | Option.none => .err (.sliceRead sn en) { f with stack := rest3 }
              | e => .err (.typeErr e.getType 2) { f with stack := rest3 }
          | e => .err (.typeErr e.getType 1) { f with stack := rest2 }
      | e => .err (.typeErr e.getType 0) { f with stack := rest }
  | 73 => .panicked f
  | 74 => .panicked f
  | 75 =>
    match f.stack with
    | [] => .err .stackEmpty f
    | s :: rest =>
      match s with
      | .vlist _ d => .ok .none { f with stack := Value.vint (wrap64 d.length) :: rest, cursor := c }
      | .vbytes _ d => .ok .none { f with stack := Value.vint (wrap64 d.length) :: rest, cursor := c }
      | .vbytesBuffer _ d =>
        .ok .none { f with stack := Value.vint (wrap64 d.length) :: rest, cursor := c }
      | .vstringValue _ d =>
        .ok .none { f with stack := Value.vint (wrap64 d.length) :: rest, cursor := c }
      | .vstringBuffer _ d =>
        .ok .none { f with stack := Value.vint (wrap64 d.length) :: rest, cursor := c }
      | e => .err (.typeErr e.getType 0) { f with stack := rest }
  | 76 =>
    match f.stack with
    | [] => .err .stackEmpty f
    | lv :: rest =>
      match lv with
      | .vint _ =>
        match rest with
        | [] => .err .stackEmpty { f with stack := [] }
        | s :: rest2 =>
          match s with
          | .vlist _ _ => .ok .none { f with stack := rest2, cursor := c }
          | .vbytesBuffer _ _ => .ok .none { f with stack := rest2, cursor := c }
          | e => .err (.typeErr e.getType 1) { f with stack := rest2 }
      | e => .err (.typeErr e.getType 0) { f with stack := rest }
  | _ => .err (.bytecodeRead c) f

/-- `parse_and_run` from `op.rs`: read the opcode at the cursor and run one
instruction. -/
def opStep (f : Frame) : StepRes :=
  match f.bytecode[f.cursor]? with
  | Option.none => .err (.bytecodeRead f.cursor) f
  | Option.some b => opExec b.val (f.cursor + 1) f

/-- One decoded instruction of `parse_and_run` from `operation.rs`.  Every
arm other than JUMP/JUMP_ZERO/JUMP_NEG is textually identical to the
corresponding arm of `op.rs` and is shared with `opExec`; the three jump
arms differ: the operand is a 4-byte big-endian `i32`, `JUMP_ZERO` has no
`None` arm (a popped `None` is a `Type` error), and `JUMP_NEG` accepts
`None` as negative. -/
def operationExec (op : Nat) (c : Nat) (f : Frame) : StepRes :=
  match op with
  | 22 =>
    match sliceGet f.bytecode c (c + 4) with
    | Option.none => .err (.bytecodeRead c) f
    | Option.some bs => .ok (.jump (i32be bs)) { f with cursor := c + 4 }
  | 23 =>
    match sliceGet f.bytecode c (c + 4) with
    | Option.none => .err (.bytecodeRead c) f
    | Option.some bs =>
      match f.stack with
      | [] => .err .stackEmpty f
      | v :: rest =>
        match v with
        | .vbool b =>
          .ok (if b then .none else .jump (i32be bs)) { f with stack := rest, cursor := c + 4 }
        | .vint n =>
          .ok (if n = 0 then .jump (i32be bs) else .none) { f with stack := rest, cursor := c + 4 }
        | .vreal r =>
          .ok (if r.isZero then .jump (i32be bs) else .none) { f with stack := rest, cursor := c + 4 }
        | e => .err (.typeErr e.getType 0) { f with stack := rest }
  | 24 =>
    match sliceGet f.bytecode c (c + 4) with
    | Option.none => .err (.bytecodeRead c) f
    | Option.some bs =>
      match f.stack with
      | [] => .err .stackEmpty f
      | v :: rest =>
        match v with
        | .vnone => .ok (.jump (i32be bs)) { f with stack := rest, cursor := c + 4 }
        | .vint n =>
          .ok (if n < 0 then .jump (i32be bs) else .none) { f with stack := rest, cursor := c + 4 }
        | .vreal r =>
          .ok (if r.isNeg then .jump (i32be bs) else .none) { f with stack := rest, cursor := c + 4 }
        | e => .err (.typeErr e.getType 0) { f with stack := rest }
  | _ => opExec op c f

/-- `parse_and_run` from `operation.rs`. -/
def operationStep (f : Frame) : StepRes :=
  match f.bytecode[f.cursor]? with
  | Option.none => .err (.bytecodeRead f.cursor) f
  | Option.some b => operationExec b.val (f.cursor + 1) f

/-! ## Acceptance predicates and operand widths used by the theorems -/

/-- The value types `JUMP_ZERO` accepts in `operation.rs` (Bool, Integer,
Real; `None` is not accepted there). -/
def jzAccepts : Value → Bool
  | .vbool _ => true
  | .vint _ => true
  | .vreal _ => true
  | _ => false

/-- The value types `JUMP_NEG` accepts in `operation.rs` (None, Integer,
Real). -/
def jnAccepts : Value → Bool
  | .vnone => true
  | .vint _ => true
  | .vreal _ => true
  | _ => false

/-- The target types `CALL` accepts (Function, NativeFn). -/
def fnAccepts : Value → Bool
  | .vfunction _ => true
  | .vnativeFn _ => true
  | _ => false

/-- Number of inline operand bytes of each opcode in the `op.rs` wire
format (jumps carry a 2-byte `i16` there). -/
def operandLen (op : Nat) : Nat :=
  if op = 20 then 1
  else if op = 22 ∨ op = 23 ∨ op = 24 then 2
  else if op = 33 ∨ op = 34 then 8
  else if op = 40 ∨ op = 41 ∨ op = 42 then 1
  else 0
/-- C2 counterexample.  The claim asserts that `cmp` on values of distinct
tags returns `Less`/`Greater` per the fixed tag order, so in particular
`cmp(None, Bool true)` would be `Less`; the code's `pure_value_cmp` falls
through to `None` (incomparable) for every cross-tag pair other than the
two content-compared pairs. -/
theorem cmp_none_bool_incomparable :
    Value.cmp Value.vnone (Value.vbool true) = none ∧
    (none : Option Ordering) ≠ some Ordering.lt := by
  constructor
  · rfl
  · intro h; cases h

/-- C2 (amended): for every pair of values of distinct type tags, `cmp`
returns incomparable (`none`), except the cross-tag pairs
`Bytes`/`BytesBuffer` and `StringValue`/`StringBuffer`, which compare
byte-wise (resp. string-wise), oriented by the tag normalisation. -/
theorem cmp_cross_tag (a b : Value) (h : a.tagIdx ≠ b.tagIdx) :
    Value.cmp a b = crossCmpSpec a b := by
  cases a <;> cases b <;>
    first
      | (exact absurd rfl h)
      | rfl

/-- Witness for `cmp_cross_tag` at a concrete cross-tag pair. -/
theorem cmp_cross_tag_witness :
    (Value.vbytes 0 [⟨1, by omega⟩]).tagIdx ≠ (Value.vbytesBuffer 1 []).tagIdx ∧
    Value.cmp (Value.vbytes 0 [⟨1, by omega⟩]) (Value.vbytesBuffer 1 []) =
      crossCmpSpec (Value.vbytes 0 [⟨1, by omega⟩]) (Value.vbytesBuffer 1 []) := by
  refine ⟨by decide, cmp_cross_tag _ _ (by decide)⟩


/-- Unfolding `opStep` once the opcode at the cursor is known. -/
theorem opStep_eq_exec (f : Frame) (b : Byte) (hb : f.bytecode[f.cursor]? = some b) :
    opStep f = opExec b.val (f.cursor + 1) f := by
  unfold opStep; rw [hb]

/-- Unfolding `operationStep` once the opcode at the cursor is known. -/
theorem operationStep_eq_exec (f : Frame) (b : Byte) (hb : f.bytecode[f.cursor]? = some b) :
    operationStep f = operationExec b.val (f.cursor + 1) f := by
  unfold operationStep; rw [hb]

/-- C10: for every frame whose cursor points at opcode 73 (`SEQ_SET_SLICE`)
or 74 (`SEQ_APPEND`), both dispatchers hit the `todo!()` panic: the step
returns neither a directive nor a `VmError`. -/
theorem reserved_opcodes_panic (f : Frame) (b : Byte)
    (hb : f.bytecode[f.cursor]? = some b) (hop : b.val = 73 ∨ b.val = 74) :
    opStep f = .panicked f ∧ operationStep f = .panicked f := by
  rw [opStep_eq_exec f b hb, operationStep_eq_exec f b hb]
  rcases hop with h | h <;> rw [h] <;> exact ⟨rfl, rfl⟩

/-- Witness for `reserved_opcodes_panic` at a concrete frame. -/
theorem reserved_opcodes_panic_witness :
    opStep (Frame.mk [] [] 0 [73]) = .panicked (Frame.mk [] [] 0 [73]) ∧
    operationStep (Frame.mk [] [] 0 [73]) = .panicked (Frame.mk [] [] 0 [73]) :=
  reserved_opcodes_panic (Frame.mk [] [] 0 [73]) 73 rfl (Or.inl rfl)

/-- C3 counterexample.  In the `op.rs` dispatcher a `JUMP` at cursor 0 over
the bytes `[22, 0, 1, 0, 0]` reads only the two operand bytes `[0, 1]`
(delta `1`, cursor `3`); the claim's 4-byte big-endian `i32` reading would
give delta `65536` and cursor `5`. -/
theorem jump_operand_16bit_cex :
    opStep (Frame.mk [] [] 0 [22, 0, 1, 0, 0]) =
      .ok (.jump 1) (Frame.mk [] [] 3 [22, 0, 1, 0, 0]) ∧
    (1 : Int) ≠ 65536 ∧ (3 : Nat) ≠ 5 := by
  refine ⟨rfl, by decide, by decide⟩

/-- C3 (amended): in the `operation.rs` dispatcher, JUMP/JUMP_ZERO/JUMP_NEG
carry a 4-byte big-endian `i32` inline operand (every successful step over
them advances the cursor past opcode plus 4 bytes, and JUMP yields the
decoded `i32` delta); in the `op.rs` dispatcher they carry a 2-byte
big-endian `i16` operand instead. -/
theorem jump_operand_widths (f : Frame) (b : Byte)
    (hb : f.bytecode[f.cursor]? = some b) (hop : b.val = 22 ∨ b.val = 23 ∨ b.val = 24) :
    (∀ a f', operationStep f = .ok a f' → f'.cursor = f.cursor + 1 + 4) ∧
    (∀ a f', opStep f = .ok a f' → f'.cursor = f.cursor + 1 + 2) ∧
    (b.val = 22 →
      (∀ bs, sliceGet f.bytecode (f.cursor + 1) (f.cursor + 1 + 4) = some bs →
        operationStep f = .ok (.jump (i32be bs)) { f with cursor := f.cursor + 1 + 4 }) ∧
      (∀ bs, sliceGet f.bytecode (f.cursor + 1) (f.cursor + 1 + 2) = some bs →
        opStep f = .ok (.jump (i16be bs)) { f with cursor := f.cursor + 1 + 2 })) := by
  rw [opStep_eq_exec f b hb, operationStep_eq_exec f b hb]
  rcases hop with h | h | h <;> rw [h]
  · refine ⟨?_, ?_, ?_⟩
    · intro a f' hk
      simp only [operationExec] at hk
      repeat' split at hk
      all_goals first
        | exact StepRes.noConfusion hk
        | (cases hk; rfl)
    · intro a f' hk
      simp only [opExec] at hk
      repeat' split at hk
      all_goals first
        | exact StepRes.noConfusion hk
        | (cases hk; rfl)
    · intro _
      constructor
      · intro bs hbs
        simp only [operationExec]
        rw [hbs]
      · intro bs hbs
        simp only [opExec]
        rw [hbs]
  · refine ⟨?_, ?_, ?_⟩
    · intro a f' hk
      simp only [operationExec] at hk
      repeat' split at hk
      all_goals first
        | exact StepRes.noConfusion hk
        | (cases hk; rfl)
    · intro a f' hk
      simp only [opExec] at hk
      repeat' split at hk
      all_goals first
        | exact StepRes.noConfusion hk
        | (cases hk; rfl)
    · intro hcon
      exact absurd hcon (by decide)
  · refine ⟨?_, ?_, ?_⟩
    · intro a f' hk
      simp only [operationExec] at hk
      repeat' split at hk
      all_goals first
        | exact StepRes.noConfusion hk
        | (cases hk; rfl)
    · intro a f' hk
      simp only [opExec] at hk
      repeat' split at hk
      all_goals first
        | exact StepRes.noConfusion hk
        | (cases hk; rfl)
    · intro hcon
      exact absurd hcon (by decide)

/-- Witness for `jump_operand_widths` at a concrete frame. -/
theorem jump_operand_widths_witness :
    operationStep (Frame.mk [] [] 0 [22, 0, 0, 0, 1]) =
      .ok (.jump (i32be [0, 0, 0, 1])) (Frame.mk [] [] 5 [22, 0, 0, 0, 1]) ∧
    opStep (Frame.mk [] [] 0 [22, 0, 0, 0, 1]) =
      .ok (.jump (i16be [0, 0])) (Frame.mk [] [] 3 [22, 0, 0, 0, 1]) :=
  ⟨((jump_operand_widths (Frame.mk [] [] 0 [22, 0, 0, 0, 1]) 22 rfl (Or.inl rfl)).2.2
      rfl).1 [0, 0, 0, 1] rfl,
   ((jump_operand_widths (Frame.mk [] [] 0 [22, 0, 0, 0, 1]) 22 rfl (Or.inl rfl)).2.2
      rfl).2 [0, 0] rfl⟩

/-- C4 counterexample.  The `op.rs` dispatcher accepts a popped `None` as
zero, so `JUMP_ZERO` over `[23, 0, 5]` with `None` on the stack jumps
instead of returning the `Type` error the claim requires. -/
theorem jump_zero_none_cex :
    opStep (Frame.mk [Value.vnone] [] 0 [23, 0, 5]) =
      .ok (.jump 5) (Frame.mk [] [] 3 [23, 0, 5]) ∧
    StepRes.ok (.jump 5) (Frame.mk [] [] 3 [23, 0, 5]) ≠
      .err (.typeErr ValueType.none 0) (Frame.mk [] [] 0 [23, 0, 5]) := by
  refine ⟨rfl, ?_⟩
  intro h
  exact StepRes.noConfusion h

/-- C4 (amended): in the `operation.rs` dispatcher, `JUMP_ZERO` pops one
value and jumps iff it is zero, accepting exactly Bool (zero iff false),
Integer (`= 0`) and Real (`= 0.0`); every other popped type — including
`None` — yields a `Type` error without jumping (cursor unchanged).  The
`op.rs` dispatcher additionally accepts `None` and treats it as zero
(it jumps). -/
theorem jump_zero_semantics (f : Frame) (b : Byte) (v : Value) (rest : List Value)
    (hb : f.bytecode[f.cursor]? = some b) (hop : b.val = 23)
    (hs : f.stack = v :: rest) :
    (∀ bs, sliceGet f.bytecode (f.cursor + 1) (f.cursor + 1 + 4) = some bs →
      (∀ x, v = .vbool x → operationStep f =
        .ok (if x then .none else .jump (i32be bs))
          { f with stack := rest, cursor := f.cursor + 1 + 4 }) ∧
      (∀ n, v = .vint n → operationStep f =
        .ok (if n = 0 then .jump (i32be bs) else .none)
          { f with stack := rest, cursor := f.cursor + 1 + 4 }) ∧
      (∀ r, v = .vreal r → operationStep f =
        .ok (if r.isZero then .jump (i32be bs) else .none)
          { f with stack := rest, cursor := f.cursor + 1 + 4 }) ∧
      (jzAccepts v = false →
        operationStep f = .err (.typeErr v.getType 0) { f with stack := rest })) ∧
    (∀ bs, sliceGet f.bytecode (f.cursor + 1) (f.cursor + 1 + 2) = some bs →
      v = .vnone →
      opStep f = .ok (.jump (i16be bs)) { f with stack := rest, cursor := f.cursor + 1 + 2 }) := by
  rw [opStep_eq_exec f b hb, operationStep_eq_exec f b hb, hop]
  constructor
  · intro bs hbs
    simp only [operationExec]
    rw [hbs, hs]
    refine ⟨?_, ?_, ?_, ?_⟩
    · intro x hv; rw [hv]
    · intro n hv; rw [hv]
    · intro r hv; rw [hv]
    · intro hacc
      cases v <;> simp_all [jzAccepts]
  · intro bs hbs hv
    simp only [opExec]
    rw [hbs, hs, hv]

/-- Witness for `jump_zero_semantics` at a concrete frame (popped
`Integer 0`, `operation.rs` dispatcher: it jumps). -/
theorem jump_zero_semantics_witness :
    operationStep (Frame.mk [Value.vint 0] [] 0 [23, 0, 0, 0, 7]) =
      .ok (if (0 : Int) = 0 then .jump (i32be [0, 0, 0, 7]) else .none)
        (Frame.mk [] [] 5 [23, 0, 0, 0, 7]) :=
  (((jump_zero_semantics (Frame.mk [Value.vint 0] [] 0 [23, 0, 0, 0, 7]) 23 (Value.vint 0) []
      rfl rfl rfl).1 [0, 0, 0, 7] rfl).2.1) 0 rfl

/-- C5 counterexample.  The claim requires `JUMP_NEG` to accept a popped
`None` (treated as negative, so it jumps); the `op.rs` dispatcher instead
returns a `Type` error for `None`. -/
theorem jump_neg_none_cex :
    opStep (Frame.mk [Value.vnone] [] 0 [24, 0, 3]) =
      .err (.typeErr ValueType.none 0) (Frame.mk [] [] 0 [24, 0, 3]) ∧
    StepRes.err (.typeErr ValueType.none 0) (Frame.mk [] [] 0 [24, 0, 3]) ≠
      .ok (.jump 3) (Frame.mk [] [] 3 [24, 0, 3]) := by
  refine ⟨rfl, ?_⟩
  intro h
  exact StepRes.noConfusion h

/-- C5 (amended): in the `operation.rs` dispatcher, `JUMP_NEG` pops one
value and jumps iff it is negative, accepting exactly Integer (`< 0`),
Real (`< 0.0`) and `None` (always treated as negative); every other popped
type yields a `Type` error.  The `op.rs` dispatcher instead rejects `None`
with a `Type` error. -/
theorem jump_neg_semantics (f : Frame) (b : Byte) (v : Value) (rest : List Value)
    (hb : f.bytecode[f.cursor]? = some b) (hop : b.val = 24)
    (hs : f.stack = v :: rest) :
    (∀ bs, sliceGet f.bytecode (f.cursor + 1) (f.cursor + 1 + 4) = some bs →
      (v = .vnone → operationStep f =
        .ok (.jump (i32be bs)) { f with stack := rest, cursor := f.cursor + 1 + 4 }) ∧
      (∀ n, v = .vint n → operationStep f =
        .ok (if n < 0 then .jump (i32be bs) else .none)
          { f with stack := rest, cursor := f.cursor + 1 + 4 }) ∧
      (∀ r, v = .vreal r → operationStep f =
        .ok (if r.isNeg then .jump (i32be bs) else .none)
          { f with stack := rest, cursor := f.cursor + 1 + 4 }) ∧
      (jnAccepts v = false →
        operationStep f = .err (.typeErr v.getType 0) { f with stack := rest })) ∧
    (∀ bs, sliceGet f.bytecode (f.cursor + 1) (f.cursor + 1 + 2) = some bs →
      v = .vnone →
      opStep f = .err (.typeErr ValueType.none 0) { f with stack := rest }) := by
  rw [opStep_eq_exec f b hb, operationStep_eq_exec f b hb, hop]
  constructor
  · intro bs hbs
    simp only [operationExec]
    rw [hbs, hs]
    refine ⟨?_, ?_, ?_, ?_⟩
    · intro hv; rw [hv]
    · intro n hv; rw [hv]
    · intro r hv; rw [hv]
    · intro hacc
      cases v <;> simp_all [jnAccepts]
  · intro bs hbs hv
    simp only [opExec]
    rw [hbs, hs, hv]
    rfl

/-- Witness for `jump_neg_semantics` at a concrete frame (popped `None`,
`operation.rs` dispatcher: it jumps). -/
theorem jump_neg_semantics_witness :
    operationStep (Frame.mk [Value.vnone] [] 0 [24, 0, 0, 0, 9]) =
      .ok (.jump (i32be [0, 0, 0, 9])) (Frame.mk [] [] 5 [24, 0, 0, 0, 9]) :=
  (((jump_neg_semantics (Frame.mk [Value.vnone] [] 0 [24, 0, 0, 0, 9]) 24 Value.vnone []
      rfl rfl rfl).1 [0, 0, 0, 9] rfl).1) rfl

/-- `popNArgs` pops the first `n` stack values in pop order: the topmost
value becomes the HEAD of the argument list. -/
theorem popNArgs_eq_take_drop (n : Nat) (s : List Value) (h : n ≤ s.length) :
    popNArgs n s = some (s.take n, s.drop n) := by
  induction n generalizing s with
  | zero => simp [popNArgs]
  | succ n ih =>
    cases s with
    | nil => simp at h
    | cons v s => simp [popNArgs, ih s (by simpa using h)]

/-- C6 counterexample.  `CALL 2` over the stack (top first)
`[Function 7, Integer 2, Integer 1]` emits `Call 7 [Integer 2, Integer 1]`:
the topmost-popped argument (`Integer 2`) is the FIRST element of the
emitted argument list, not the last as the claim states. -/
theorem call_arg_order_cex :
    opStep (Frame.mk [Value.vfunction 7, Value.vint 2, Value.vint 1] [] 0 [20, 2]) =
      .ok (.call 7 [Value.vint 2, Value.vint 1]) (Frame.mk [] [] 2 [20, 2]) ∧
    [Value.vint 2, Value.vint 1] ≠ [Value.vint 1, Value.vint 2] := by
  refine ⟨rfl, ?_⟩
  intro h
  have h2 : Value.vint 2 = Value.vint 1 := by
    injection h
  have : (2 : Int) = 1 := by injection h2
  exact absurd this (by decide)

/-- C6 (amended): `CALL` with inline count `n` pops the target first and
then `n` arguments; the emitted argument list is in pop order, so the
topmost-popped argument is the FIRST argument.  The result is
`Call(f, args)` for a `Function` target, `CallNative(f, args)` for a
`NativeFn` target, and a `Type` error (after the pops, cursor unchanged)
for every other target type. -/
theorem call_dispatch (lo : List Value) (cu : Nat) (bc : List Byte) (b nb : Byte)
    (tgt : Value) (rest : List Value)
    (hb : bc[cu]? = some b) (hop : b.val = 20) (hnb : bc[cu + 1]? = some nb)
    (hlen : nb.val ≤ rest.length) :
    (∀ a, tgt = .vfunction a → opStep (Frame.mk (tgt :: rest) lo cu bc) =
      .ok (.call a (rest.take nb.val))
        (Frame.mk (rest.drop nb.val) lo (cu + 1 + 1) bc)) ∧
    (∀ a, tgt = .vnativeFn a → opStep (Frame.mk (tgt :: rest) lo cu bc) =
      .ok (.callNative a (rest.take nb.val))
        (Frame.mk (rest.drop nb.val) lo (cu + 1 + 1) bc)) ∧
    (fnAccepts tgt = false → opStep (Frame.mk (tgt :: rest) lo cu bc) =
      .err (.typeErr tgt.getType 0) (Frame.mk (rest.drop nb.val) lo cu bc)) := by
  rw [opStep_eq_exec _ b hb, hop]
  simp only [opExec, hnb, popNArgs_eq_take_drop nb.val rest hlen]
  refine ⟨?_, ?_, ?_⟩
  · intro a hv; subst hv; rfl
  · intro a hv; subst hv; rfl
  · intro hacc
    cases tgt <;> simp_all [fnAccepts]

/-- Witness for `call_dispatch` at a concrete frame. -/
theorem call_dispatch_witness :
    opStep (Frame.mk [Value.vfunction 3, Value.vbool true, Value.vnone] [] 0 [20, 2]) =
      .ok (.call 3 [Value.vbool true, Value.vnone]) (Frame.mk [] [] 2 [20, 2]) :=
  (call_dispatch [] 0 [20, 2] 20 2 (Value.vfunction 3) [Value.vbool true, Value.vnone]
      rfl rfl rfl (by decide)).1 3 rfl

/-- C7 counterexample.  Integer `DIV` with dividend `i64::MIN` and divisor
`-1` overflows, so `checked_div` is `None` and the step returns
`DivByZero` even though the divisor is not 0 — refuting the claimed
"DivByZero iff divisor = 0". -/
theorem div_overflow_cex :
    opStep (Frame.mk [Value.vint (-1), Value.vint (-(2 ^ 63))] [] 0 [5]) =
      .err .divByZero (Frame.mk [] [] 0 [5]) ∧
    (-1 : Int) ≠ 0 := by
  exact ⟨rfl, by decide⟩

/-- C7 (amended): for two Integer operands, `DIV`/`REM` return `DivByZero`
iff the divisor is 0 OR the division overflows (dividend `i64::MIN` with
divisor `-1`); otherwise they push the truncated quotient (resp.
remainder).  For two Real operands `DIV`/`REM` never error (IEEE float
division is total). -/
theorem div_rem_semantics (lo : List Value) (cu : Nat) (bc : List Byte) (b : Byte)
    (rest : List Value) (hb : bc[cu]? = some b) :
    (∀ a d : Int, (b.val = 5 ∨ b.val = 6) →
      (d = 0 ∨ (a = -(2 ^ 63) ∧ d = -1)) →
      opStep (Frame.mk (Value.vint d :: Value.vint a :: rest) lo cu bc) =
        .err .divByZero (Frame.mk rest lo cu bc)) ∧
    (∀ a d : Int, b.val = 5 → ¬(d = 0 ∨ (a = -(2 ^ 63) ∧ d = -1)) →
      opStep (Frame.mk (Value.vint d :: Value.vint a :: rest) lo cu bc) =
        .ok .none (Frame.mk (Value.vint (a.tdiv d) :: rest) lo (cu + 1) bc)) ∧
    (∀ a d : Int, b.val = 6 → ¬(d = 0 ∨ (a = -(2 ^ 63) ∧ d = -1)) →
      opStep (Frame.mk (Value.vint d :: Value.vint a :: rest) lo cu bc) =
        .ok .none (Frame.mk (Value.vint (a.tmod d) :: rest) lo (cu + 1) bc)) ∧
    (∀ u w : F64, b.val = 5 →
      opStep (Frame.mk (Value.vreal w :: Value.vreal u :: rest) lo cu bc) =
        .ok .none (Frame.mk (Value.vreal (F64.div u w) :: rest) lo (cu + 1) bc)) ∧
    (∀ u w : F64, b.val = 6 →
      opStep (Frame.mk (Value.vreal w :: Value.vreal u :: rest) lo cu bc) =
        .ok .none (Frame.mk (Value.vreal (F64.rem u w) :: rest) lo (cu + 1) bc)) := by
  refine ⟨?_, ?_, ?_, ?_, ?_⟩
  · intro a d hop hz
    rcases hop with h | h <;>
      (rw [opStep_eq_exec _ b hb, h]; simp only [opExec, divRem]; rw [if_pos hz])
  · intro a d hop hz
    rw [opStep_eq_exec _ b hb, hop]
    simp only [opExec, divRem]
    rw [if_neg hz]
  · intro a d hop hz
    rw [opStep_eq_exec _ b hb, hop]
    simp only [opExec, divRem]
    rw [if_neg hz]
  · intro u w hop
    rw [opStep_eq_exec _ b hb, hop]
    simp only [opExec, divRem]
  · intro u w hop
    rw [opStep_eq_exec _ b hb, hop]
    simp only [opExec, divRem]

/-- Witness for `div_rem_semantics` at concrete frames: `7 / 2 = 3` and
`7 / 0` errors. -/
theorem div_rem_semantics_witness :
    opStep (Frame.mk [Value.vint 2, Value.vint 7] [] 0 [5]) =
      .ok .none (Frame.mk [Value.vint (Int.tdiv 7 2)] [] 1 [5]) ∧
    opStep (Frame.mk [Value.vint 0, Value.vint 7] [] 0 [5]) =
      .err .divByZero (Frame.mk [] [] 0 [5]) :=
  ⟨(div_rem_semantics [] 0 [5] 5 [] rfl).2.1 7 2 rfl (by decide),
   (div_rem_semantics [] 0 [5] 5 [] rfl).1 7 0 (Or.inl rfl) (Or.inl rfl)⟩

/-- Decoding the head scalar of a dropped suffix is decoding at the drop
index. -/
theorem utf8DecodeAt_drop (bs : List Byte) (i : Nat) :
    utf8DecodeAt (bs.drop i) 0 = utf8DecodeAt bs i := by
  unfold utf8DecodeAt
  simp [List.getElem?_drop]

/-- Characterisation of `get_char_at`: it yields the scalar starting
EXACTLY at byte `i` when `i` is a char boundary strictly before the end,
and `None` otherwise — in particular `None` when `i` lands strictly inside
a multi-byte scalar (`str::get` returns `None` off a boundary). -/
theorem getCharAt_eq (bs : List Byte) (i : Nat) :
    getCharAt bs i =
      if isCharBoundary bs i ∧ i < bs.length then some (utf8DecodeAt bs i) else none := by
  unfold getCharAt strGet
  by_cases hcb : isCharBoundary bs i
  · simp only [hcb, if_true, Option.some_bind]
    rcases hd : bs.drop i with _ | ⟨bb, t⟩
    · have hlen : bs.length ≤ i := List.drop_eq_nil_iff.mp hd
      simp [firstCharOf, Nat.not_lt.mpr hlen]
    · have hlt : i < bs.length := by
        by_contra hge
        rw [List.drop_eq_nil_iff.mpr (by omega)] at hd
        exact List.noConfusion hd
      rw [← hd, ← utf8DecodeAt_drop bs i]
      rw [hd]
      simp [firstCharOf, hcb, hlt]
  · simp only [Bool.not_eq_true] at hcb
    simp [hcb]

/-- C8 counterexample.  For the two-scalar string `"éa"`
(bytes `[0xC3, 0xA9, 0x61]`) and byte index 1 — strictly inside the
two-byte scalar `é` — `STR_CHAR_AT` pushes `None`, not the scalar `'a'`
that starts after that byte as the claim states. -/
theorem str_char_at_mid_scalar_cex :
    opStep (Frame.mk [Value.vint 1, Value.vstringValue 0 [0xC3, 0xA9, 0x61]] [] 0 [61]) =
      .ok .none (Frame.mk [Value.vnone] [] 1 [61]) ∧
    Value.vnone ≠ Value.vchar 'a' := by
  refine ⟨rfl, ?_⟩
  intro h
  exact Value.noConfusion h

/-- C8 (amended): for a `StringValue` (or `StringBuffer`) with bytes `bs`
and Integer byte-index `i`, `STR_CHAR_AT` pushes the `Char` whose encoding
starts EXACTLY at byte `i` when `i` is a UTF-8 char boundary strictly
before the end, and pushes `None` otherwise — both when `i` is out of
range and when `i` lands strictly inside a multi-byte scalar. -/
theorem str_char_at_semantics (lo : List Value) (cu : Nat) (bc : List Byte) (b : Byte)
    (n : Int) (sv : Value) (addr : Nat) (bs : List Byte) (rest : List Value)
    (hb : bc[cu]? = some b) (hop : b.val = 61)
    (hsv : sv = .vstringValue addr bs ∨ sv = .vstringBuffer addr bs) :
    opStep (Frame.mk (Value.vint n :: sv :: rest) lo cu bc) =
      .ok .none
        (Frame.mk
          ((if isCharBoundary bs (usizeOfI64 n) ∧ usizeOfI64 n < bs.length
              then Value.vchar (utf8DecodeAt bs (usizeOfI64 n)) else Value.vnone) :: rest)
          lo (cu + 1) bc) := by
  rcases hsv with h | h <;> subst h <;>
    · rw [opStep_eq_exec _ b hb, hop]
      simp only [opExec, getCharAt_eq]
      split
      · rename_i ch heq
        split at heq
        · rename_i hc
          injection heq with h'
          subst h'
          rw [if_pos hc]
        · exact Option.noConfusion heq
      · rename_i heq
        split at heq
        · exact Option.noConfusion heq
        · rename_i hc
          rw [if_neg hc]

/-- Witness for `str_char_at_semantics`: index 0 of `"a"` yields `'a'`. -/
theorem str_char_at_semantics_witness :
    opStep (Frame.mk [Value.vint 0, Value.vstringValue 0 [0x61]] [] 0 [61]) =
      .ok .none (Frame.mk [Value.vchar 'a'] [] 1 [61]) :=
  str_char_at_semantics [] 0 [61] 61 0 (Value.vstringValue 0 [0x61]) 0 [0x61] []
    rfl rfl (Or.inl rfl)

/-- A successful `math_op!` leaves the cursor at `c`. -/
theorem binMath_ok_cursor (f : Frame) (c : Nat) (iop : Int → Int → Int)
    (rop : F64 → F64 → F64) (a : VmAction) (f' : Frame)
    (h : binMath f c iop rop = .ok a f') : f'.cursor = c := by
  unfold binMath at h
  repeat' split at h
  all_goals first
    | exact StepRes.noConfusion h
    | (cases h; rfl)

/-- A successful `int_op!` leaves the cursor at `c`. -/
theorem binInt_ok_cursor (f : Frame) (c : Nat) (iop : Int → Int → Int)
    (a : VmAction) (f' : Frame)
    (h : binInt f c iop = .ok a f') : f'.cursor = c := by
  unfold binInt at h
  repeat' split at h
  all_goals first
    | exact StepRes.noConfusion h
    | (cases h; rfl)

/-- A successful DIV/REM arm leaves the cursor at `c`. -/
theorem divRem_ok_cursor (f : Frame) (c : Nat) (iop : Int → Int → Int)
    (rop : F64 → F64 → F64) (a : VmAction) (f' : Frame)
    (h : divRem f c iop rop = .ok a f') : f'.cursor = c := by
  unfold divRem at h
  repeat' split at h
  all_goals first
    | exact StepRes.noConfusion h
    | (cases h; rfl)

/-- Every successful instruction of the `op.rs` dispatcher leaves the
cursor exactly `operandLen op` bytes past the local cursor `c` (which is
already past the opcode byte). -/
theorem opExec_ok_cursor (op c : Nat) (f : Frame) (a : VmAction) (f' : Frame)
    (h : opExec op c f = .ok a f') : f'.cursor = c + operandLen op := by
  unfold opExec at h
  split at h
  all_goals
    first
      | exact StepRes.noConfusion h
      | (rw [binMath_ok_cursor _ _ _ _ _ _ h]; simp [operandLen])
      | (rw [binInt_ok_cursor _ _ _ _ _ h]; simp [operandLen])
      | (rw [divRem_ok_cursor _ _ _ _ _ _ h]; simp [operandLen])
      | (repeat' split at h
         all_goals first
           | exact StepRes.noConfusion h
           | (cases h; simp [operandLen]))

/-- When an instruction has inline operand bytes and they are truncated,
the `op.rs` dispatcher fails with `BytecodeRead` at the operand position
`c`, leaving the frame (in particular its cursor and stack) unchanged:
every operand read happens before any pop. -/
theorem opExec_truncated (op c : Nat) (f : Frame) (h0 : 0 < operandLen op)
    (hlen : f.bytecode.length < c + operandLen op) :
    opExec op c f = .err (.bytecodeRead c) f := by
  have hs2 : f.bytecode.length < c + 2 → sliceGet f.bytecode c (c + 2) = Option.none := by
    intro h'
    simp only [sliceGet]
    rw [if_neg (by omega)]
  have hs8 : f.bytecode.length < c + 8 → sliceGet f.bytecode c (c + 8) = Option.none := by
    intro h'
    simp only [sliceGet]
    rw [if_neg (by omega)]
  unfold operandLen at h0 hlen
  split_ifs at h0 hlen with h20 hj hlit hfrm
  · subst h20
    simp only [opExec]
    rw [List.getElem?_eq_none (by omega)]
  · rcases hj with h | h | h <;> subst h <;>
      (simp only [opExec]; rw [hs2 (by omega)])
  · rcases hlit with h | h <;> subst h <;>
      (simp only [opExec]; rw [hs8 (by omega)])
  · rcases hfrm with h | h | h <;> subst h <;>
      (simp only [opExec]; rw [List.getElem?_eq_none (by omega)])
  · omega

/-- A successful conditional jump (opcode 23 or 24) in `op.rs` produces
either the `None` directive (predicate false) or a `Jump`. -/
theorem opExec_cond_jump_action (op c : Nat) (f : Frame) (a : VmAction) (f' : Frame)
    (hop : op = 23 ∨ op = 24) (h : opExec op c f = .ok a f') :
    a = .none ∨ ∃ d, a = .jump d := by
  rcases hop with h' | h' <;> subst h' <;>
    · simp only [opExec] at h
      repeat' split at h
      all_goals first
        | exact StepRes.noConfusion h
        | (cases h; exact Or.inl rfl)
        | (cases h; exact Or.inr ⟨_, rfl⟩)

/-- C9: in the `op.rs` dispatcher, (1) whenever a step returns a directive
(`Ok`), the cursor has been advanced past the opcode byte and all of that
instruction's inline operand bytes; (2) whenever an inline operand is
truncated, `BytecodeRead` at the operand position is returned and the
frame — in particular its cursor — is unchanged; and (3) a successful
conditional jump yields either `Jump` or the `None` directive (predicate
false). -/
theorem step_cursor_discipline (f : Frame) :
    (∀ a f', opStep f = .ok a f' →
      ∃ b : Byte, f.bytecode[f.cursor]? = some b ∧
        f'.cursor = f.cursor + 1 + operandLen b.val) ∧
    (∀ b : Byte, f.bytecode[f.cursor]? = some b → 0 < operandLen b.val →
      f.bytecode.length < f.cursor + 1 + operandLen b.val →
      opStep f = .err (.bytecodeRead (f.cursor + 1)) f) ∧
    (∀ (b : Byte) a f', f.bytecode[f.cursor]? = some b → (b.val = 23 ∨ b.val = 24) →
      opStep f = .ok a f' → a = .none ∨ ∃ d, a = .jump d) := by
  refine ⟨?_, ?_, ?_⟩
  · intro a f' h
    cases hb : f.bytecode[f.cursor]? with
    | none =>
      rw [opStep, hb] at h
      exact StepRes.noConfusion h
    | some b =>
      rw [opStep_eq_exec f b hb] at h
      exact ⟨b, rfl, opExec_ok_cursor _ _ _ _ _ h⟩
  · intro b hb h0 hlen
    rw [opStep_eq_exec f b hb]
    exact opExec_truncated _ _ _ h0 (by omega)
  · intro b a f' hb hop h
    rw [opStep_eq_exec f b hb] at h
    exact opExec_cond_jump_action _ _ _ _ _ hop h

/-- Witness for `step_cursor_discipline`: a successful `NONE` step and a
truncated `LIT_INT`. -/
theorem step_cursor_discipline_witness :
    (∃ b : Byte, ([1] : List Byte)[(0 : Nat)]? = some b ∧ (1 : Nat) = 0 + 1 + operandLen b.val) ∧
    opStep (Frame.mk [] [] 0 [33]) = .err (.bytecodeRead 1) (Frame.mk [] [] 0 [33]) :=
  ⟨(step_cursor_discipline (Frame.mk [] [] 0 [1])).1 .none (Frame.mk [] [] 1 [1]) rfl,
   (step_cursor_discipline (Frame.mk [] [] 0 [33])).2.1 33 rfl (by decide) (by decide)⟩
